import Mathlib

/-!
Code Padlocks — verification of the OTP generator.

Shallow embedding of `src/script.js` of the `code-padlocks` repository:
a TOTP-style one-time-passcode generator.  JavaScript strings are `String`,
JavaScript numbers occurring here are mathematical integers (`Int`/`Nat` —
all values in play are far below 2^53, where JS numbers are exact), and the
ambient clock (`Date.now()`) is modelled as an explicit stream of readings
`clock : Nat → Int` together with a cursor that each call advances.

The platform primitive `window.crypto.subtle` (HMAC-SHA-256) is not part of
the repository; it is modelled by a standards-compliant executable
implementation of SHA-256 / HMAC (FIPS 180-4 / RFC 2104) on byte lists.
-/

/-! ## Bit/byte primitives -/

/-- Truncate to a 32-bit word. -/
def w32 (x : Nat) : Nat := x % 4294967296

/-- 32-bit rotate right. -/
def rotr32 (n x : Nat) : Nat := w32 ((x >>> n) ||| (x <<< (32 - n)))

/-- SHA-256 Σ₀. -/
def bsig0 (x : Nat) : Nat := rotr32 2 x ^^^ rotr32 13 x ^^^ rotr32 22 x

/-- SHA-256 Σ₁. -/
def bsig1 (x : Nat) : Nat := rotr32 6 x ^^^ rotr32 11 x ^^^ rotr32 25 x

/-- SHA-256 σ₀. -/
def ssig0 (x : Nat) : Nat := rotr32 7 x ^^^ rotr32 18 x ^^^ (x >>> 3)

/-- SHA-256 σ₁. -/
def ssig1 (x : Nat) : Nat := rotr32 17 x ^^^ rotr32 19 x ^^^ (x >>> 10)

/-- SHA-256 Ch(x,y,z) = (x ∧ y) ⊕ (¬x ∧ z), on 32-bit words. -/
def ch32 (x y z : Nat) : Nat := (x &&& y) ^^^ ((x ^^^ 4294967295) &&& z)

/-- SHA-256 Maj(x,y,z). -/
def maj32 (x y z : Nat) : Nat := (x &&& y) ^^^ (x &&& z) ^^^ (y &&& z)

/-- The 64 SHA-256 round constants K (FIPS 180-4 §4.2.2, decimal). -/
def K256 : List Nat :=
  [1116352408, 1899447441, 3049323471, 3921009573,
   961987163, 1508970993, 2453635748, 2870763221,
   3624381080, 310598401, 607225278, 1426881987,
   1925078388, 2162078206, 2614888103, 3248222580,
   3835390401, 4022224774, 264347078, 604807628,
   770255983, 1249150122, 1555081692, 1996064986,
   2554220882, 2821834349, 2952996808, 3210313671,
   3336571891, 3584528711, 113926993, 338241895,
   666307205, 773529912, 1294757372, 1396182291,
   1695183700, 1986661051, 2177026350, 2456956037,
   2730485921, 2820302411, 3259730800, 3345764771,
   3516065817, 3600352804, 4094571909, 275423344,
   430227734, 506948616, 659060556, 883997877,
   958139571, 1322822218, 1537002063, 1747873779,
   1955562222, 2024104815, 2227730452, 2361852424,
   2428436474, 2756734187, 3204031479, 3329325298]

/-- The eight SHA-256 working variables / chaining values. -/
structure Hash8 where
  a : Nat
  b : Nat
  c : Nat
  d : Nat
  e : Nat
  f : Nat
  g : Nat
  h : Nat

/-- SHA-256 initial hash value H⁽⁰⁾ (FIPS 180-4 §5.3.3, decimal). -/
def sha256Init : Hash8 :=
  ⟨1779033703, 3144134277, 1013904242, 2773480762,
   1359893119, 2600822924, 528734635, 1541459225⟩

/-- One SHA-256 round: state update for a single (Kₜ, Wₜ) pair. -/
def sha256Round (st : Hash8) (kw : Nat × Nat) : Hash8 :=
  let t1 := w32 (st.h + bsig1 st.e + ch32 st.e st.f st.g + kw.1 + kw.2)
  let t2 := w32 (bsig0 st.a + maj32 st.a st.b st.c)
  ⟨w32 (t1 + t2), st.a, st.b, st.c, w32 (st.d + t1), st.e, st.f, st.g⟩

/-- Four big-endian bytes to one 32-bit word. -/
def bytesToWord : List Nat → Nat
  | [b0, b1, b2, b3] => b0 * 16777216 + b1 * 65536 + b2 * 256 + b3
  | _ => 0

/-- Split a byte list into 4-byte groups (the 16 message-schedule words of a block). -/
def toWords : List Nat → List Nat
  | b0 :: b1 :: b2 :: b3 :: rest => bytesToWord [b0, b1, b2, b3] :: toWords rest
  | _ => []

/-- Extend the 16-word message schedule by `n` further words (to 64 in total). -/
def extendSchedule : Nat → List Nat → List Nat
  | 0, ws => ws
  | n + 1, ws =>
      let m := ws.length
      let next := w32 (ssig1 (ws.getD (m - 2) 0) + ws.getD (m - 7) 0 +
                       ssig0 (ws.getD (m - 15) 0) + ws.getD (m - 16) 0)
      extendSchedule n (ws ++ [next])

/-- SHA-256 compression of a single 64-byte block into the chaining value. -/
def sha256Block (H : Hash8) (block : List Nat) : Hash8 :=
  let ws := extendSchedule 48 (toWords block)
  let st := (K256.zip ws).foldl sha256Round H
  ⟨w32 (H.a + st.a), w32 (H.b + st.b), w32 (H.c + st.c), w32 (H.d + st.d),
   w32 (H.e + st.e), w32 (H.f + st.f), w32 (H.g + st.g), w32 (H.h + st.h)⟩

/-- Split a byte list into 64-byte blocks (structural recursion on a fuel
bound, so that the definition reduces inside the kernel; `l.length` steps
always suffice since every step consumes at least one byte). -/
def toBlocksFuel : Nat → List Nat → List (List Nat)
  | 0, _ => []
  | fuel + 1, l => if l.isEmpty then [] else l.take 64 :: toBlocksFuel fuel (l.drop 64)

/-- Split a byte list into 64-byte blocks. -/
def toBlocks (l : List Nat) : List (List Nat) := toBlocksFuel l.length l

/-- One 32-bit word to four big-endian bytes. -/
def wordToBytes (x : Nat) : List Nat :=
  [x / 16777216 % 256, x / 65536 % 256, x / 256 % 256, x % 256]

/-- A 64-bit length field as eight big-endian bytes. -/
def lenToBytes8 (x : Nat) : List Nat :=
  wordToBytes (x / 4294967296) ++ wordToBytes x

/-- SHA-256 padding: append 0x80, zeros to 56 mod 64, then the bit length. -/
def sha256Pad (msg : List Nat) : List Nat :=
  let L := msg.length
  msg ++ [0x80] ++ List.replicate ((64 - (L + 9) % 64) % 64) 0 ++ lenToBytes8 (L * 8)

/-- SHA-256 of a byte list, as a 32-byte (big-endian per word) digest. -/
def sha256 (msg : List Nat) : List Nat :=
  let Hf := (toBlocks (sha256Pad msg)).foldl sha256Block sha256Init
  wordToBytes Hf.a ++ wordToBytes Hf.b ++ wordToBytes Hf.c ++ wordToBytes Hf.d ++
  wordToBytes Hf.e ++ wordToBytes Hf.f ++ wordToBytes Hf.g ++ wordToBytes Hf.h

/-- HMAC-SHA-256 (RFC 2104) of a key and message given as byte lists. -/
def hmacSha256 (key msg : List Nat) : List Nat :=
  let k1 := if 64 < key.length then sha256 key else key
  let k2 := k1 ++ List.replicate (64 - k1.length) 0
  let ipad := k2.map (fun b => b ^^^ 0x36)
  let opad := k2.map (fun b => b ^^^ 0x5c)
  sha256 (opad ++ sha256 (ipad ++ msg))

/-! ## UTF-8 encoding (the `TextEncoder` of the script) -/

/-- UTF-8 encoding of a single Unicode scalar value. -/
def utf8Char (c : Char) : List Nat :=
  let n := c.toNat
  if n < 0x80 then [n]
  else if n < 0x800 then [0xc0 ||| (n >>> 6), 0x80 ||| (n &&& 0x3f)]
  else if n < 0x10000 then
    [0xe0 ||| (n >>> 12), 0x80 ||| ((n >>> 6) &&& 0x3f), 0x80 ||| (n &&& 0x3f)]
  else
    [0xf0 ||| (n >>> 18), 0x80 ||| ((n >>> 12) &&& 0x3f),
     0x80 ||| ((n >>> 6) &&& 0x3f), 0x80 ||| (n &&& 0x3f)]

/-- UTF-8 encoding of a string (`new TextEncoder().encode(s)`). -/
def utf8 (s : String) : List Nat := (s.data.map utf8Char).flatten

/-! ## JavaScript value and string primitives used by the script -/

/-- A JavaScript value as it occurs in this script: a number or a string.
Numbers are mathematical integers (all numbers in play are exact in JS). -/
inductive JSVal where
  | num : Int → JSVal
  | str : String → JSVal

/-- Base-`b` digits of `n`, least significant first, with an explicit fuel
bound (structural recursion, so the kernel can evaluate it; `n` steps always
suffice since `n / b < n` for positive `n` and `b ≥ 2`). -/
def digitsRevFuel (b : Nat) : Nat → Nat → List Nat
  | 0, _ => []
  | fuel + 1, n => if n = 0 then [] else (n % b) :: digitsRevFuel b fuel (n / b)

/-- Hex digits of `n`, least significant first (empty for zero). -/
def hexDigitsRev (n : Nat) : List Nat := digitsRevFuel 16 n n

/-- Decimal digits of `n`, least significant first (empty for zero). -/
def decDigitsRev (n : Nat) : List Nat := digitsRevFuel 10 n n

/-- JS `n.toString(16)` for a natural number: lowercase hex, `"0"` for zero. -/
def natToString16 (n : Nat) : String :=
  if n = 0 then "0" else ⟨((hexDigitsRev n).reverse).map Nat.digitChar⟩

/-- JS `n.toString()` for a natural number: decimal, `"0"` for zero. -/
def natToString10 (n : Nat) : String :=
  if n = 0 then "0" else ⟨((decDigitsRev n).reverse).map Nat.digitChar⟩

/-- JS `i.toString(16)` for an integer (negatives render with a leading minus). -/
def intToString16 (i : Int) : String :=
  if i < 0 then "-" ++ natToString16 i.natAbs else natToString16 i.toNat

/-- JS `v.toString(16)`: on numbers, hex rendering; on strings, the radix
argument is ignored and the string itself is returned. -/
def jsToString16 : JSVal → String
  | .num i => intToString16 i
  | .str s => s

/-- JS `s.padStart(n, c)` for a single-character pad: prepend copies of `c`
up to length `n`; a string already at least `n` long is unchanged. -/
def padStart (s : String) (n : Nat) (c : Char) : String :=
  ⟨List.replicate (n - s.length) c⟩ ++ s

/-- JS `s.substring(a, b)`: clamp both arguments into `[0, s.length]`,
swap them if needed, and take the characters in between. -/
def jsSubstring (s : String) (a b : Int) : String :=
  let len := s.length
  let a' := min a.toNat len
  let b' := min b.toNat len
  ⟨(s.data.take (max a' b')).drop (min a' b')⟩

/-- JS `s.substring(a)`: from index `a` (clamped) to the end. -/
def jsSubstringFrom (s : String) (a : Int) : String :=
  jsSubstring s a (s.length : Int)

/-- Value of one hex digit character, either case; `none` otherwise. -/
def hexDigitVal (c : Char) : Option Nat :=
  if 48 ≤ c.toNat ∧ c.toNat ≤ 57 then some (c.toNat - 48)
  else if 97 ≤ c.toNat ∧ c.toNat ≤ 102 then some (c.toNat - 87)
  else if 65 ≤ c.toNat ∧ c.toNat ≤ 70 then some (c.toNat - 55)
  else none

/-- Consume a run of hex digits, accumulating their value; stop at the
first non-digit (JS `parseInt` ignores trailing garbage). -/
def parseHexRun (acc : Nat) : List Char → Nat
  | [] => acc
  | c :: cs =>
      match hexDigitVal c with
      | some d => parseHexRun (16 * acc + d) cs
      | none => acc

/-- Parse a hex-digit run; `none` (JS `NaN`) when there is no digit at all. -/
def parseHexMain : List Char → Option Nat
  | [] => none
  | c :: cs =>
      match hexDigitVal c with
      | some d => some (parseHexRun d cs)
      | none => none

/-- For radix 16, JS `parseInt` strips a leading `0x`/`0X`. -/
def strip0x (l : List Char) : List Char :=
  match l with
  | c0 :: c1 :: rest => if c0 = '0' ∧ (c1 = 'x' ∨ c1 = 'X') then rest else l
  | _ => l

/-- JS `parseInt(s, 16)`: skip leading whitespace, take an optional sign,
strip `0x`, then parse the longest hex-digit prefix; `none` is `NaN`. -/
def jsParseInt16 (s : String) : Option Int :=
  match s.data.dropWhile Char.isWhitespace with
  | [] => none
  | c :: rest =>
      if c = '-' then (parseHexMain (strip0x rest)).map (fun n => -(n : Int))
      else if c = '+' then (parseHexMain (strip0x rest)).map (fun n => (n : Int))
      else (parseHexMain (strip0x (c :: rest))).map (fun n => (n : Int))

/-! ## The script's functions (`src/script.js`) -/

/-- The script's `generateHmac(key, message)`: HMAC-SHA-256 over the UTF-8 encodings,
rendered as a string of two lowercase hex characters per byte. -/
def generateHmac (key message : String) : String :=
  ⟨((hmacSha256 (utf8 key) (utf8 message)).map
      (fun b => (padStart (natToString16 b) 2 '0').data)).flatten⟩

/-- JS `hmac.substring(offset * 2, offset * 2 + 8)` where `offset` may be `NaN`:
a `NaN` offset makes both `substring` arguments `NaN`, which `substring`
coerces to 0 (yielding the empty slice). -/
def jsNaNSlice (hmac : String) (offset : Option Int) : String :=
  match offset with
  | some o => jsSubstring hmac (o * 2) (o * 2 + 8)
  | none => jsSubstring hmac 0 0

/-- JS `x & 0x7fffffff` for `x` a `parseInt` result: `NaN` coerces to 0;
otherwise `ToInt32` wraps to 32 bits and the mask keeps the low 31. -/
def jsToUint31 : Option Int → Nat
  | some x => ((x % 4294967296) % 2147483648).toNat
  | none => 0

/-- The script's `generateOTP(time, secret)`: hex-render and pad both inputs, HMAC them,
then dynamic truncation: the offset is the last hex character of the tag, an
8-hex-character slice at `offset * 2` is parsed, masked with `0x7fffffff`
(via JS `&`, i.e. on the low 32 bits), and reduced modulo 1 000 000. -/
def generateOTP (time secret : JSVal) : String :=
  let timeHex := padStart (jsToString16 time) 16 '0'
  let secretHex := padStart (jsToString16 secret) 16 '0'
  let hmac := generateHmac secretHex timeHex
  let offset := jsParseInt16 (jsSubstringFrom hmac ((hmac.length : Int) - 1))
  let otp := jsToUint31 (jsParseInt16 (jsNaNSlice hmac offset)) % 1000000
  padStart (natToString10 otp) 6 '0'

/-- The script's `generateMonthlyOTP(secret)`: reads `Date.now()` (one clock reading,
advancing the cursor) and uses the 2 592 000 000 ms window. -/
def generateMonthlyOTP (clock : Nat → Int) (i : Nat) (secret : JSVal) : String × Nat :=
  (generateOTP (.num (Int.fdiv (clock i) 2592000000)) secret, i + 1)

/-- The script's `generateBiWeeklyOTP(secret)`: window 1 209 600 000 ms. -/
def generateBiWeeklyOTP (clock : Nat → Int) (i : Nat) (secret : JSVal) : String × Nat :=
  (generateOTP (.num (Int.fdiv (clock i) 1209600000)) secret, i + 1)

/-- The script's `generateWeeklyOTP(secret)`: window 604 800 000 ms. -/
def generateWeeklyOTP (clock : Nat → Int) (i : Nat) (secret : JSVal) : String × Nat :=
  (generateOTP (.num (Int.fdiv (clock i) 604800000)) secret, i + 1)

/-- The script's `generateDailyOTP(secret)`: window 86 400 000 ms. -/
def generateDailyOTP (clock : Nat → Int) (i : Nat) (secret : JSVal) : String × Nat :=
  (generateOTP (.num (Int.fdiv (clock i) 86400000)) secret, i + 1)

/-- The script's `generateHourlyOTP(secret)`: window 3 600 000 ms. -/
def generateHourlyOTP (clock : Nat → Int) (i : Nat) (secret : JSVal) : String × Nat :=
  (generateOTP (.num (Int.fdiv (clock i) 3600000)) secret, i + 1)

/-- The script's `generate30MinuteOTP(secret)`: window 1 800 000 ms. -/
def generate30MinuteOTP (clock : Nat → Int) (i : Nat) (secret : JSVal) : String × Nat :=
  (generateOTP (.num (Int.fdiv (clock i) 1800000)) secret, i + 1)

/-- The script's `generateMinutelyOTP(secret)`: window 60 000 ms. -/
def generateMinutelyOTP (clock : Nat → Int) (i : Nat) (secret : JSVal) : String × Nat :=
  (generateOTP (.num (Int.fdiv (clock i) 60000)) secret, i + 1)

/-- The script's `formatOTP(otp)`: first three characters, a space, then the rest. -/
def formatOTP (otp : String) : String :=
  jsSubstring otp 0 3 ++ " " ++ jsSubstringFrom otp 3

/-- JS `s.replaceAll(' ', '')`: drop every space character. -/
def removeSpaces (s : String) : String :=
  ⟨s.data.filter (fun c => !(c == ' '))⟩

/-- The `setInterval` callback: read the secret field, strip spaces, then
generate all seven OTPs (each generator reading the clock itself) and
produce the (element id, formatted OTP) writes.  Returns the writes and
the advanced clock cursor. -/
def updatePass (clock : Nat → Int) (i : Nat) (secretField : String) :
    List (String × String) × Nat :=
  let secret := removeSpaces secretField
  let (monthlyOTP, i1) := generateMonthlyOTP clock i (.str secret)
  let (biWeeklyOTP, i2) := generateBiWeeklyOTP clock i1 (.str secret)
  let (weeklyOTP, i3) := generateWeeklyOTP clock i2 (.str secret)
  let (dailyOTP, i4) := generateDailyOTP clock i3 (.str secret)
  let (hourlyOTP, i5) := generateHourlyOTP clock i4 (.str secret)
  let (thirtyMinuteOTP, i6) := generate30MinuteOTP clock i5 (.str secret)
  let (minuteOTP, i7) := generateMinutelyOTP clock i6 (.str secret)
  ([("monthly-otp", formatOTP monthlyOTP),
    ("biweekly-otp", formatOTP biWeeklyOTP),
    ("weekly-otp", formatOTP weeklyOTP),
    ("daily-otp", formatOTP dailyOTP),
    ("hourly-otp", formatOTP hourlyOTP),
    ("30-minute-otp", formatOTP thirtyMinuteOTP),
    ("minute-otp", formatOTP minuteOTP)], i7)

/-- The result message of `testCodes`: the `if (match) ... else ...` on the
value produced by `codes.find(...)`. -/
def testResultMsg : Option (String × String) → String
  | some mch => "Code matches " ++ mch.1 ++ " code"
  | none => "Code does not match any code"

/-- The script's `testCodes()`: read and strip the secret and the entered code, recompute
the seven candidates in order (each generator reading the clock itself),
and report the first candidate equal to the code, or a no-match message. -/
def testCodes (clock : Nat → Int) (i : Nat) (secretField codeField : String) :
    String × Nat :=
  let secret := removeSpaces secretField
  let code := removeSpaces codeField
  let (m, i1) := generateMonthlyOTP clock i (.str secret)
  let (bw, i2) := generateBiWeeklyOTP clock i1 (.str secret)
  let (w, i3) := generateWeeklyOTP clock i2 (.str secret)
  let (d, i4) := generateDailyOTP clock i3 (.str secret)
  let (hr, i5) := generateHourlyOTP clock i4 (.str secret)
  let (tm, i6) := generate30MinuteOTP clock i5 (.str secret)
  let (mn, i7) := generateMinutelyOTP clock i6 (.str secret)
  let codes : List (String × String) :=
    [("Monthly", m), ("Bi-Weekly", bw), ("Weekly", w), ("Daily", d),
     ("Hourly", hr), ("30-Minute", tm), ("Minute", mn)]
  (testResultMsg (codes.find? (fun c => c.2 == code)), i7)

/-! ## Spec-side definitions (the wording of `spec.md`) -/

/-- A lowercase hexadecimal character: a decimal digit or `'a'`–`'f'`. -/
def isHexLC (c : Char) : Bool :=
  (48 ≤ c.toNat && c.toNat ≤ 57) || (97 ≤ c.toNat && c.toNat ≤ 102)

/-- Big-endian value of a hex-character string (spec §4.2 step 5:
"interpret it as a big-endian 32-bit unsigned integer"). -/
def beHexVal (l : List Char) : Nat :=
  l.foldl (fun a c => 16 * a + (hexDigitVal c).getD 0) 0

/-- Spec §4.2 steps 4–8, as written: the offset is the integer value of the
tag's last hex character; extract the 8-hex-character substring at index
`offset * 2` as a big-endian integer; mask with `0x7fffffff`; reduce modulo
1 000 000; zero-pad to 6 decimal digits. -/
def specTruncate (tag : String) : String :=
  let o := (hexDigitVal (tag.data.getLastD '0')).getD 0
  let v := beHexVal ((tag.data.drop (o * 2)).take 8)
  let m := v &&& 0x7fffffff
  padStart (natToString10 (m % 1000000)) 6 '0'

/-- Spec §4.3/§3: the CandidateSet of one verification pass — the seven
(granularity label, OTP) pairs in fixed order, each generator consuming its
own clock reading in sequence. -/
def candidateSet (clock : Nat → Int) (i : Nat) (secret : JSVal) :
    List (String × String) :=
  [("Monthly", (generateMonthlyOTP clock i secret).1),
   ("Bi-Weekly", (generateBiWeeklyOTP clock (i + 1) secret).1),
   ("Weekly", (generateWeeklyOTP clock (i + 2) secret).1),
   ("Daily", (generateDailyOTP clock (i + 3) secret).1),
   ("Hourly", (generateHourlyOTP clock (i + 4) secret).1),
   ("30-Minute", (generate30MinuteOTP clock (i + 5) secret).1),
   ("Minute", (generateMinutelyOTP clock (i + 6) secret).1)]

/-- Spec §4.4: compare the user code against each candidate by exact string
equality in order; the first matching granularity's label, else `none`. -/
def findMatch (cands : List (String × String)) (userCode : String) :
    Option String :=
  (cands.find? (fun c => c.2 == userCode)).map (fun c => c.1)

/-- Spec §4.4: how a match result is reported: the matched granularity's
label, or an explicit no-match indication. -/
def renderMatch : Option String → String
  | some name => "Code matches " ++ name ++ " code"
  | none => "Code does not match any code"

/-- Spec §4.3: the ideal single-snapshot generation pass: one time reading
`t` drives all seven granularities. -/
def snapshotCandidates (t : Int) (secret : JSVal) : List (String × String) :=
  [("monthly-otp", formatOTP (generateOTP (.num (Int.fdiv t 2592000000)) secret)),
   ("biweekly-otp", formatOTP (generateOTP (.num (Int.fdiv t 1209600000)) secret)),
   ("weekly-otp", formatOTP (generateOTP (.num (Int.fdiv t 604800000)) secret)),
   ("daily-otp", formatOTP (generateOTP (.num (Int.fdiv t 86400000)) secret)),
   ("hourly-otp", formatOTP (generateOTP (.num (Int.fdiv t 3600000)) secret)),
   ("30-minute-otp", formatOTP (generateOTP (.num (Int.fdiv t 1800000)) secret)),
   ("minute-otp", formatOTP (generateOTP (.num (Int.fdiv t 60000)) secret))]

/-! ## Digit and rendering lemmas -/

theorem digitsRevFuel_lt (b : Nat) (hb : 0 < b) :
    ∀ fuel n d, d ∈ digitsRevFuel b fuel n → d < b := by
  intro fuel
  induction fuel with
  | zero => intro n d h; simp [digitsRevFuel] at h
  | succ fuel ih =>
      intro n d h
      by_cases hn : n = 0
      · simp [digitsRevFuel, hn] at h
      · simp only [digitsRevFuel, if_neg hn, List.mem_cons] at h
        rcases h with h | h
        · exact h ▸ Nat.mod_lt _ hb
        · exact ih _ _ h

theorem digitsRevFuel_length_le (b : Nat) (hb : 2 ≤ b) :
    ∀ fuel n k, n ≤ fuel → n < b ^ k → (digitsRevFuel b fuel n).length ≤ k := by
  intro fuel
  induction fuel with
  | zero => intro n k _ _; simp [digitsRevFuel]
  | succ fuel ih =>
      intro n k hle hlt
      by_cases hn : n = 0
      · simp [digitsRevFuel, hn]
      · simp only [digitsRevFuel, if_neg hn, List.length_cons]
        have hk : k ≠ 0 := by
          rintro rfl
          simp at hlt
          omega
        obtain ⟨k', rfl⟩ := Nat.exists_eq_succ_of_ne_zero hk
        have hdivlt : n / b < n := Nat.div_lt_self (Nat.pos_of_ne_zero hn) hb
        have h1 : n / b ≤ fuel := by omega
        have h2 : n / b < b ^ k' := by
          rw [Nat.div_lt_iff_lt_mul (by omega)]
          calc n < b ^ (k' + 1) := hlt
          _ = b ^ k' * b := by ring
        exact Nat.succ_le_succ (ih _ _ h1 h2)

/-- Every digit below 16 renders as a lowercase hex character. -/
theorem digitChar_isHexLC : ∀ d, d < 16 → isHexLC (Nat.digitChar d) = true := by
  decide

/-- Every digit below 10 renders as a decimal digit character. -/
theorem digitChar_isDigit : ∀ d, d < 10 → (Nat.digitChar d).isDigit = true := by
  decide

/-- The characters of `natToString16` are lowercase hex characters. -/
theorem natToString16_isHexLC (n : Nat) :
    ∀ c ∈ (natToString16 n).data, isHexLC c = true := by
  intro c hc
  unfold natToString16 at hc
  split at hc
  · simp at hc
    subst hc
    decide
  · simp only [List.mem_map, List.mem_reverse] at hc
    obtain ⟨d, hd, rfl⟩ := hc
    exact digitChar_isHexLC d (digitsRevFuel_lt 16 (by norm_num) _ _ _ hd)

/-- The characters of `natToString10` are decimal digit characters. -/
theorem natToString10_isDigit (n : Nat) :
    ∀ c ∈ (natToString10 n).data, c.isDigit = true := by
  intro c hc
  unfold natToString10 at hc
  split at hc
  · simp at hc
    subst hc
    decide
  · simp only [List.mem_map, List.mem_reverse] at hc
    obtain ⟨d, hd, rfl⟩ := hc
    exact digitChar_isDigit d (digitsRevFuel_lt 10 (by norm_num) _ _ _ hd)

/-- Length bound for hex rendering: below `16 ^ k` means at most `k` digits. -/
theorem natToString16_length_le (n k : Nat) (hk : 0 < k) (h : n < 16 ^ k) :
    (natToString16 n).length ≤ k := by
  unfold natToString16
  split
  · simpa [String.length] using hk
  · simpa [String.length] using
      digitsRevFuel_length_le 16 (by norm_num) n n k le_rfl h

/-- Length bound for decimal rendering: below `10 ^ k` means at most `k` digits. -/
theorem natToString10_length_le (n k : Nat) (hk : 0 < k) (h : n < 10 ^ k) :
    (natToString10 n).length ≤ k := by
  unfold natToString10
  split
  · simpa [String.length] using hk
  · simpa [String.length] using
      digitsRevFuel_length_le 10 (by norm_num) n n k le_rfl h

/-! ## padStart and String plumbing -/

theorem padStart_data (s : String) (n : Nat) (c : Char) :
    (padStart s n c).data = List.replicate (n - s.length) c ++ s.data := by
  cases s
  rfl

theorem padStart_length (s : String) (n : Nat) (c : Char) :
    (padStart s n c).length = max n s.length := by
  show (padStart s n c).data.length = max n s.length
  rw [padStart_data, List.length_append, List.length_replicate]
  have h : s.data.length = s.length := rfl
  rw [h]
  omega

theorem padStart_length_of_le (s : String) (n : Nat) (c : Char)
    (h : s.length ≤ n) : (padStart s n c).length = n := by
  rw [padStart_length]
  omega

theorem padStart_of_length_ge (s : String) (n : Nat) (c : Char)
    (h : n ≤ s.length) : padStart s n c = s := by
  cases s with
  | mk l =>
      show String.mk _ ++ String.mk l = String.mk l
      have : l.length ≤ l.length := le_rfl
      simp [String.length] at h
      simp [Nat.sub_eq_zero_of_le h, String.append]

/-! ## SHA-256 output shape -/

theorem wordToBytes_length (x : Nat) : (wordToBytes x).length = 4 := rfl

theorem wordToBytes_mem_lt (x : Nat) : ∀ b ∈ wordToBytes x, b < 256 := by
  intro b hb
  simp only [wordToBytes, List.mem_cons, List.not_mem_nil, or_false] at hb
  rcases hb with rfl | rfl | rfl | rfl <;> exact Nat.mod_lt _ (by norm_num)

/-- A SHA-256 digest is 32 bytes, each below 256. -/
theorem sha256_shape (m : List Nat) :
    (sha256 m).length = 32 ∧ ∀ b ∈ sha256 m, b < 256 := by
  constructor
  · simp [sha256, wordToBytes]
  · intro b hb
    simp only [sha256, List.mem_append] at hb
    rcases hb with ((((((h | h) | h) | h) | h) | h) | h) | h <;>
      exact wordToBytes_mem_lt _ _ h

/-- An HMAC-SHA-256 tag is 32 bytes, each below 256. -/
theorem hmacSha256_shape (key m : List Nat) :
    (hmacSha256 key m).length = 32 ∧ ∀ b ∈ hmacSha256 key m, b < 256 := by
  unfold hmacSha256
  exact sha256_shape _

/-! ## The hex rendering of the tag -/

/-- One byte below 256 renders as exactly two lowercase hex characters. -/
theorem byteHex_shape (b : Nat) (hb : b < 256) :
    (padStart (natToString16 b) 2 '0').data.length = 2 ∧
    ∀ c ∈ (padStart (natToString16 b) 2 '0').data, isHexLC c = true := by
  constructor
  · exact padStart_length_of_le (natToString16 b) 2 '0'
      (natToString16_length_le b 2 (by norm_num) (by norm_num; omega))
  · intro c hc
    rw [padStart_data] at hc
    rcases List.mem_append.mp hc with h | h
    · rw [List.eq_of_mem_replicate h]
      decide
    · exact natToString16_isHexLC b c h

/-- Rendering a list of bytes (all below 256) gives two hex characters per
byte, all lowercase hex. -/
theorem bytesHex_shape (l : List Nat) (hl : ∀ b ∈ l, b < 256) :
    ((l.map (fun b => (padStart (natToString16 b) 2 '0').data)).flatten).length
      = 2 * l.length ∧
    ∀ c ∈ (l.map (fun b => (padStart (natToString16 b) 2 '0').data)).flatten,
      isHexLC c = true := by
  induction l with
  | nil => simp
  | cons b t ih =>
      have hb : b < 256 := hl b (List.mem_cons_self b t)
      have ht : ∀ x ∈ t, x < 256 := fun x hx => hl x (List.mem_cons_of_mem b hx)
      obtain ⟨ihl, ihm⟩ := ih ht
      obtain ⟨hbl, hbm⟩ := byteHex_shape b hb
      constructor
      · simp only [List.map_cons, List.flatten_cons, List.length_append, ihl, hbl,
          List.length_cons]
        ring
      · intro c hc
        simp only [List.map_cons, List.flatten_cons, List.mem_append] at hc
        rcases hc with h | h
        · exact hbm c h
        · exact ihm c h

/-- The `generateHmac` output: a 64-character lowercase hex string. -/
theorem generateHmac_shape (key m : String) :
    (generateHmac key m).data.length = 64 ∧
    ∀ c ∈ (generateHmac key m).data, isHexLC c = true := by
  obtain ⟨h32, hmem⟩ := hmacSha256_shape (utf8 key) (utf8 m)
  obtain ⟨hlen, hchars⟩ := bytesHex_shape (hmacSha256 (utf8 key) (utf8 m)) hmem
  have hdata : (generateHmac key m).data
      = ((hmacSha256 (utf8 key) (utf8 m)).map
          (fun b => (padStart (natToString16 b) 2 '0').data)).flatten := rfl
  constructor
  · rw [hdata, hlen, h32]
  · rw [hdata]
    exact hchars

theorem generateHmac_length (key m : String) : (generateHmac key m).length = 64 :=
  (generateHmac_shape key m).1

theorem generateHmac_ne_empty (key m : String) : (generateHmac key m).data ≠ [] := by
  intro h
  have := (generateHmac_shape key m).1
  rw [h] at this
  simp at this

/-! ## parseInt lemmas -/

theorem hexDigitVal_getD_le (c : Char) : (hexDigitVal c).getD 0 ≤ 15 := by
  unfold hexDigitVal
  split_ifs with h1 h2 h3
  · simp only [Option.getD_some]; omega
  · simp only [Option.getD_some]; omega
  · simp only [Option.getD_some]; omega
  · simp

theorem isHexLC_hexDigitVal (c : Char) (h : isHexLC c = true) :
    hexDigitVal c = some ((hexDigitVal c).getD 0) := by
  simp only [isHexLC, Bool.or_eq_true, Bool.and_eq_true, decide_eq_true_eq] at h
  unfold hexDigitVal
  split_ifs with h1 h2 h3
  · rfl
  · rfl
  · rfl
  · omega

theorem isHexLC_not_ws (c : Char) (h : isHexLC c = true) :
    c.isWhitespace = false := by
  by_contra hw
  rw [Bool.not_eq_false] at hw
  simp only [Char.isWhitespace, Bool.or_eq_true, decide_eq_true_eq] at hw
  rcases hw with ((rfl | rfl) | rfl) | rfl <;> exact absurd h (by decide)

theorem isHexLC_ne_minus (c : Char) (h : isHexLC c = true) : ¬ c = '-' := by
  rintro rfl; exact absurd h (by decide)

theorem isHexLC_ne_plus (c : Char) (h : isHexLC c = true) : ¬ c = '+' := by
  rintro rfl; exact absurd h (by decide)

theorem isHexLC_ne_x (c : Char) (h : isHexLC c = true) : ¬ (c = 'x' ∨ c = 'X') := by
  rintro (rfl | rfl) <;> exact absurd h (by decide)

theorem strip0x_cons2 (c0 c1 : Char) (rest : List Char) :
    strip0x (c0 :: c1 :: rest)
      = if c0 = '0' ∧ (c1 = 'x' ∨ c1 = 'X') then rest else c0 :: c1 :: rest := rfl

/-- The helper `strip0x` leaves a string of hex characters alone (none of them is `x`). -/
theorem strip0x_of_hex (l : List Char) (h : ∀ c ∈ l, isHexLC c = true) :
    strip0x l = l := by
  match l with
  | [] => rfl
  | [c] => rfl
  | c0 :: c1 :: rest =>
      rw [strip0x_cons2, if_neg]
      rintro ⟨-, hx⟩
      exact isHexLC_ne_x c1 (h c1 (by simp)) hx

theorem parseHexRun_eq_foldl (l : List Char) (h : ∀ c ∈ l, isHexLC c = true) :
    ∀ acc, parseHexRun acc l
      = l.foldl (fun a c => 16 * a + (hexDigitVal c).getD 0) acc := by
  induction l with
  | nil => intro acc; rfl
  | cons c cs ih =>
      intro acc
      obtain ⟨d, hd⟩ : ∃ d, hexDigitVal c = some d :=
        ⟨_, isHexLC_hexDigitVal c (h c (List.mem_cons_self c cs))⟩
      have hgd : (hexDigitVal c).getD 0 = d := by rw [hd]; rfl
      simp only [parseHexRun, hd, List.foldl_cons, hgd]
      exact ih (fun x hx => h x (List.mem_cons_of_mem c hx)) _

theorem parseHexMain_of_hex (l : List Char) (hne : l ≠ [])
    (h : ∀ c ∈ l, isHexLC c = true) : parseHexMain l = some (beHexVal l) := by
  match l with
  | [] => exact absurd rfl hne
  | c :: cs =>
      obtain ⟨d, hd⟩ : ∃ d, hexDigitVal c = some d :=
        ⟨_, isHexLC_hexDigitVal c (h c (List.mem_cons_self c cs))⟩
      have hgd : (hexDigitVal c).getD 0 = d := by rw [hd]; rfl
      have hrun := parseHexRun_eq_foldl cs
        (fun x hx => h x (List.mem_cons_of_mem c hx)) d
      simp only [parseHexMain, hd, hrun, beHexVal, List.foldl_cons, hgd]
      norm_num

theorem jsParseInt16_cons (s : String) (c : Char) (cs : List Char)
    (hd : s.data.dropWhile Char.isWhitespace = c :: cs) :
    jsParseInt16 s =
      if c = '-' then (parseHexMain (strip0x cs)).map (fun n => -(n : Int))
      else if c = '+' then (parseHexMain (strip0x cs)).map (fun n => (n : Int))
      else (parseHexMain (strip0x (c :: cs))).map (fun n => (n : Int)) := by
  unfold jsParseInt16
  rw [hd]

/-- JS `parseInt(s, 16)` on a non-empty all-lowercase-hex string is just its
big-endian hex value. -/
theorem jsParseInt16_of_hex (s : String) (hne : s.data ≠ [])
    (h : ∀ c ∈ s.data, isHexLC c = true) :
    jsParseInt16 s = some ((beHexVal s.data : Nat) : Int) := by
  obtain ⟨c, cs, hd⟩ : ∃ c cs, s.data = c :: cs := by
    cases hs : s.data with
    | nil => exact absurd hs hne
    | cons a b => exact ⟨a, b, rfl⟩
  rw [hd] at h
  have hc : isHexLC c = true := h c (List.mem_cons_self c cs)
  have hdw : s.data.dropWhile Char.isWhitespace = c :: cs := by
    rw [hd, List.dropWhile_cons, isHexLC_not_ws c hc]
    simp
  rw [jsParseInt16_cons s c cs hdw]
  rw [if_neg (isHexLC_ne_minus c hc), if_neg (isHexLC_ne_plus c hc)]
  rw [strip0x_of_hex _ h, parseHexMain_of_hex _ (by simp) h, hd]
  rfl

theorem foldl_hex_lt (l : List Char) :
    ∀ acc, l.foldl (fun a c => 16 * a + (hexDigitVal c).getD 0) acc
      < 16 ^ l.length * (acc + 1) := by
  induction l with
  | nil => intro acc; simp
  | cons c cs ih =>
      intro acc
      have hd := hexDigitVal_getD_le c
      calc List.foldl (fun a c => 16 * a + (hexDigitVal c).getD 0)
            (16 * acc + (hexDigitVal c).getD 0) cs
          < 16 ^ cs.length * (16 * acc + (hexDigitVal c).getD 0 + 1) := ih _
        _ ≤ 16 ^ cs.length * (16 * (acc + 1)) := by
            apply Nat.mul_le_mul_left
            omega
        _ = 16 ^ (c :: cs).length * (acc + 1) := by
            simp only [List.length_cons, pow_succ]
            ring

/-- The big-endian hex value of `k` characters is below `16 ^ k`. -/
theorem beHexVal_lt (l : List Char) : beHexVal l < 16 ^ l.length := by
  have := foldl_hex_lt l 0
  simpa [beHexVal] using this

/-! ## Extracting the last character and the slice -/

theorem getLastD_irrel (l : List Char) (hne : l ≠ []) (d d' : Char) :
    l.getLastD d = l.getLastD d' := by
  cases l with
  | nil => exact absurd rfl hne
  | cons c t =>
      cases t with
      | nil => rfl
      | cons c' t' =>
          conv_lhs => rw [List.getLastD_cons]
          conv_rhs => rw [List.getLastD_cons]

theorem drop_length_sub_one (l : List Char) (hne : l ≠ []) :
    l.drop (l.length - 1) = [l.getLastD '0'] := by
  induction l with
  | nil => exact absurd rfl hne
  | cons c t ih =>
      cases t with
      | nil => rfl
      | cons c' t' =>
          have h : (c :: c' :: t').length - 1 = ((c' :: t').length - 1) + 1 := by
            simp
          rw [h, List.drop_succ_cons, ih (by simp)]
          conv_rhs => rw [List.getLastD_cons]
          exact congrArg (fun x => [x]) (getLastD_irrel (c' :: t') (by simp) '0' c')

/-! ## The main refinement: `generateOTP` equals the spec's truncation -/

theorem jsNaNSlice_some (h : String) (o : Int) :
    jsNaNSlice h (some o) = jsSubstring h (o * 2) (o * 2 + 8) := rfl

theorem jsToUint31_some (x : Int) :
    jsToUint31 (some x) = ((x % 4294967296) % 2147483648).toNat := rfl

/-- JS `substring` with in-range `Nat` endpoints is plain take/drop. -/
theorem jsSubstring_nat (s : String) (a b : Nat) (hab : a ≤ b)
    (hb : b ≤ s.length) :
    jsSubstring s (a : Int) (b : Int) = ⟨(s.data.take b).drop a⟩ := by
  simp only [jsSubstring, Int.toNat_natCast]
  congr 1
  rw [Nat.min_eq_left (le_trans hab hb), Nat.min_eq_left hb,
    Nat.max_eq_right hab, Nat.min_eq_left hab]

theorem getLastD_mem : ∀ (l : List Char), l ≠ [] → ∀ d : Char, l.getLastD d ∈ l := by
  intro l
  induction l with
  | nil => intro h; exact absurd rfl h
  | cons c t ih =>
      intro _ d
      cases t with
      | nil => simp [List.getLastD]
      | cons c' t' =>
          rw [List.getLastD_cons]
          exact List.mem_cons_of_mem c (ih (by simp) c)

set_option maxHeartbeats 1000000 in
/-- The body of `generateOTP` agrees with the spec's truncation (§4.2 steps
4–8) applied to the tag of the hex-rendered, zero-padded secret and time. -/
theorem generateOTP_eq_spec (t s : JSVal) :
    generateOTP t s
      = specTruncate (generateHmac (padStart (jsToString16 s) 16 '0')
          (padStart (jsToString16 t) 16 '0')) := by
  obtain ⟨hlen, hhex⟩ :=
    generateHmac_shape (padStart (jsToString16 s) 16 '0')
      (padStart (jsToString16 t) 16 '0')
  simp only [generateOTP, specTruncate]
  set T := generateHmac (padStart (jsToString16 s) 16 '0')
      (padStart (jsToString16 t) 16 '0') with hT
  have hTne : T.data ≠ [] := by
    intro h0
    rw [h0] at hlen
    simp at hlen
  have hlenS : T.length = 64 := hlen
  set c := T.data.getLastD '0' with hc
  have hcmem : c ∈ T.data := getLastD_mem T.data hTne '0'
  have hchex : isHexLC c = true := hhex c hcmem
  set o := (hexDigitVal c).getD 0 with ho
  have ho15 : o ≤ 15 := by rw [ho]; exact hexDigitVal_getD_le c
  clear_value T c o
  -- the last character of the tag
  have hsub1 : jsSubstringFrom T ((T.length : Int) - 1) = ⟨[c]⟩ := by
    unfold jsSubstringFrom
    rw [hlenS]
    have h63 : ((64 : Nat) : Int) - 1 = ((63 : Nat) : Int) := by norm_num
    rw [h63, jsSubstring_nat T 63 64 (by omega) (by rw [hlenS])]
    congr 1
    have htake : T.data.take 64 = T.data := by
      conv_lhs => rw [← hlen]
      exact List.take_length T.data
    rw [htake]
    have h63' : (63 : Nat) = T.data.length - 1 := by rw [hlen]
    rw [h63', drop_length_sub_one T.data hTne, hc]
  have hoff : jsParseInt16 (⟨[c]⟩ : String) = some ((o : Nat) : Int) := by
    rw [jsParseInt16_of_hex ⟨[c]⟩ (by simp)
      (by intro x hx; simp at hx; subst hx; exact hchex)]
    congr 1
    show ((beHexVal [c] : Nat) : Int) = ((o : Nat) : Int)
    congr 1
    simp [beHexVal, ho]
  -- the slice
  have hslice : jsSubstring T ((o : Int) * 2) ((o : Int) * 2 + 8)
      = ⟨(T.data.drop (o * 2)).take 8⟩ := by
    have h1 : ((o : Nat) : Int) * 2 = ((o * 2 : Nat) : Int) := by push_cast; ring
    have h2 : ((o : Nat) : Int) * 2 + 8 = ((o * 2 + 8 : Nat) : Int) := by
      push_cast; ring
    rw [h2, h1, jsSubstring_nat T (o * 2) (o * 2 + 8) (by omega)
      (by rw [hlenS]; omega)]
    congr 1
    rw [List.drop_take]
    congr 1
    omega
  set sl := (T.data.drop (o * 2)).take 8 with hsl
  clear_value sl
  have hsllen : sl.length = 8 := by
    rw [hsl, List.length_take, List.length_drop, hlen]
    omega
  have hslhex : ∀ x ∈ sl, isHexLC x = true := by
    intro x hx
    rw [hsl] at hx
    exact hhex x (List.drop_subset _ _ (List.take_subset _ _ hx))
  have hslne : sl ≠ [] := by
    intro h0
    rw [h0] at hsllen
    simp at hsllen
  set n := beHexVal sl with hn
  clear_value n
  have hnlt : n < 4294967296 := by
    have hb := beHexVal_lt sl
    rw [hsllen] at hb
    norm_num at hb
    rw [hn]
    exact hb
  have hparse : jsParseInt16 (⟨sl⟩ : String) = some ((n : Nat) : Int) := by
    rw [hn]
    exact jsParseInt16_of_hex ⟨sl⟩ hslne hslhex
  have hv : (((n : Int) % 4294967296) % 2147483648).toNat = n % 2147483648 := by
    omega
  have hmask : n &&& 2147483647 = n % 2147483648 := by
    have hm := Nat.and_pow_two_sub_one_eq_mod n 31
    norm_num at hm
    exact hm
  rw [hsub1, hoff, jsNaNSlice_some, hslice, hparse, jsToUint31_some, hv, hmask]

/-! ## Derived facts used by the claims -/

/-- On a natural-number JS value, `toString(16)` is the hex rendering. -/
theorem jsToString16_num_nat (n : Nat) :
    jsToString16 (.num (n : Int)) = natToString16 n := by
  simp only [jsToString16, intToString16]
  rw [if_neg (not_lt.mpr (Int.natCast_nonneg n)), Int.toNat_natCast]

/-- All characters of a zero-padded hex rendering are lowercase hex. -/
theorem padStart_hex_chars (n k : Nat) :
    ∀ x ∈ (padStart (natToString16 n) k '0').data, isHexLC x = true := by
  intro x hx
  rw [padStart_data] at hx
  rcases List.mem_append.mp hx with h | h
  · rw [List.eq_of_mem_replicate h]; decide
  · exact natToString16_isHexLC n x h

/-- The spec truncation always yields 6 decimal digit characters. -/
theorem specTruncate_shape (tag : String) :
    (specTruncate tag).length = 6 ∧
    ∀ x ∈ (specTruncate tag).data, x.isDigit = true := by
  unfold specTruncate
  constructor
  · apply padStart_length_of_le
    apply natToString10_length_le _ 6 (by norm_num)
    have := Nat.mod_lt (beHexVal ((tag.data.drop
      ((hexDigitVal (tag.data.getLastD '0')).getD 0 * 2)).take 8) &&& 2147483647)
      (show 0 < 1000000 by norm_num)
    omega
  · intro x hx
    rw [padStart_data] at hx
    rcases List.mem_append.mp hx with h | h
    · rw [List.eq_of_mem_replicate h]; decide
    · exact natToString10_isDigit _ x h

/-- The function `generateOTP` always returns a 6-character decimal-digit string. -/
theorem generateOTP_shape (t s : JSVal) :
    (generateOTP t s).length = 6 ∧
    ∀ x ∈ (generateOTP t s).data, x.isDigit = true := by
  rw [generateOTP_eq_spec]
  exact specTruncate_shape _

/-- An empty secret and the all-zero 16-digit secret give the same HMAC key,
hence the same OTP: the empty input is silently coerced, not rejected. -/
theorem empty_secret_coerced (t : JSVal) :
    generateOTP t (.str "") = generateOTP t (.str "0000000000000000") := by
  rw [generateOTP_eq_spec, generateOTP_eq_spec]
  have hk : padStart (jsToString16 (.str "")) 16 '0'
      = padStart (jsToString16 (.str "0000000000000000")) 16 '0' := by decide
  rw [hk]

theorem digit_ne_space (x : Char) (h : x.isDigit = true) : (x == ' ') = false := by
  refine beq_eq_false_iff_ne.mpr ?_
  rintro rfl
  exact absurd h (by decide)

theorem length_eq_six {α : Type} (l : List α) (h : l.length = 6) :
    ∃ a b c d e f, l = [a, b, c, d, e, f] := by
  rcases l with _ | ⟨a, _ | ⟨b, _ | ⟨c, _ | ⟨d, _ | ⟨e, _ | ⟨f, _ | ⟨g, t⟩⟩⟩⟩⟩⟩⟩
  · simp at h
  · simp at h
  · simp at h
  · simp at h
  · simp at h
  · simp at h
  · exact ⟨a, b, c, d, e, f, rfl⟩
  · simp at h

/-- In-bounds facts for the dynamic truncation on any 64-character lowercase
hex tag: the offset parses, is at most 15, and the extracted slice has
exactly 8 hex characters (so its parse succeeds too). -/
theorem tag_truncation_facts (T : String) (hlen : T.data.length = 64)
    (hhex : ∀ x ∈ T.data, isHexLC x = true) :
    jsParseInt16 (jsSubstringFrom T ((T.length : Int) - 1))
      = some (((hexDigitVal (T.data.getLastD '0')).getD 0 : Nat) : Int)
    ∧ (hexDigitVal (T.data.getLastD '0')).getD 0 ≤ 15
    ∧ (jsNaNSlice T
        (some (((hexDigitVal (T.data.getLastD '0')).getD 0 : Nat) : Int))).length = 8
    ∧ (jsParseInt16 (jsNaNSlice T
        (some (((hexDigitVal (T.data.getLastD '0')).getD 0 : Nat) : Int)))).isSome
          = true := by
  have hTne : T.data ≠ [] := by
    intro h0
    rw [h0] at hlen
    simp at hlen
  have hlenS : T.length = 64 := hlen
  set c := T.data.getLastD '0' with hc
  have hcmem : c ∈ T.data := by rw [hc]; exact getLastD_mem T.data hTne '0'
  have hchex : isHexLC c = true := hhex c hcmem
  set o := (hexDigitVal c).getD 0 with ho
  have ho15 : o ≤ 15 := by rw [ho]; exact hexDigitVal_getD_le c
  clear_value c o
  have hsub1 : jsSubstringFrom T ((T.length : Int) - 1) = ⟨[c]⟩ := by
    unfold jsSubstringFrom
    rw [hlenS]
    have h63 : ((64 : Nat) : Int) - 1 = ((63 : Nat) : Int) := by norm_num
    rw [h63, jsSubstring_nat T 63 64 (by omega) (by rw [hlenS])]
    congr 1
    have htake : T.data.take 64 = T.data := by
      conv_lhs => rw [← hlen]
      exact List.take_length T.data
    rw [htake]
    have h63' : (63 : Nat) = T.data.length - 1 := by rw [hlen]
    rw [h63', drop_length_sub_one T.data hTne, hc]
  have hoff : jsParseInt16 (⟨[c]⟩ : String) = some ((o : Nat) : Int) := by
    rw [jsParseInt16_of_hex ⟨[c]⟩ (by simp)
      (by intro x hx; simp at hx; subst hx; exact hchex)]
    congr 1
    show ((beHexVal [c] : Nat) : Int) = ((o : Nat) : Int)
    congr 1
    simp [beHexVal, ho]
  have hslice : jsSubstring T ((o : Int) * 2) ((o : Int) * 2 + 8)
      = ⟨(T.data.drop (o * 2)).take 8⟩ := by
    have h1 : ((o : Nat) : Int) * 2 = ((o * 2 : Nat) : Int) := by push_cast; ring
    have h2 : ((o : Nat) : Int) * 2 + 8 = ((o * 2 + 8 : Nat) : Int) := by
      push_cast; ring
    rw [h2, h1, jsSubstring_nat T (o * 2) (o * 2 + 8) (by omega)
      (by rw [hlenS]; omega)]
    congr 1
    rw [List.drop_take]
    congr 1
    omega
  have hsllen : ((T.data.drop (o * 2)).take 8).length = 8 := by
    rw [List.length_take, List.length_drop, hlen]
    omega
  have hslhex : ∀ x ∈ (T.data.drop (o * 2)).take 8, isHexLC x = true := by
    intro x hx
    exact hhex x (List.drop_subset _ _ (List.take_subset _ _ hx))
  have hslne : (T.data.drop (o * 2)).take 8 ≠ [] := by
    intro h0
    rw [h0] at hsllen
    simp at hsllen
  refine ⟨by rw [hsub1]; exact hoff, ho15, ?_, ?_⟩
  · rw [jsNaNSlice_some, hslice]
    exact hsllen
  · rw [jsNaNSlice_some, hslice,
      jsParseInt16_of_hex ⟨(T.data.drop (o * 2)).take 8⟩ hslne hslhex]
    rfl

/-! ## The verification path -/

theorem testResultMsg_renderMatch (r : Option (String × String)) :
    testResultMsg r = renderMatch (r.map (fun c => c.1)) := by
  cases r <;> rfl

/-- The function `testCodes` reports exactly the first-match lookup over the CandidateSet
(in the fixed monthly → minute order) of the space-stripped inputs. -/
theorem testCodes_fst (clock : Nat → Int) (i : Nat) (sF cF : String) :
    (testCodes clock i sF cF).1
      = renderMatch (findMatch (candidateSet clock i (.str (removeSpaces sF)))
          (removeSpaces cF)) := by
  simp only [testCodes, generateMonthlyOTP, generateBiWeeklyOTP, generateWeeklyOTP,
    generateDailyOTP, generateHourlyOTP, generate30MinuteOTP, generateMinutelyOTP]
  rw [testResultMsg_renderMatch]
  rfl

/-! ## Formatting -/

theorem formatOTP_six (a b c d e f : Char) :
    formatOTP ⟨[a, b, c, d, e, f]⟩ = ⟨[a, b, c, ' ', d, e, f]⟩ := rfl

theorem removeSpaces_six (a b c d e f : Char)
    (ha : (a == ' ') = false) (hb : (b == ' ') = false) (hc : (c == ' ') = false)
    (hd : (d == ' ') = false) (he : (e == ' ') = false) (hf : (f == ' ') = false) :
    removeSpaces ⟨[a, b, c, ' ', d, e, f]⟩ = ⟨[a, b, c, d, e, f]⟩ := by
  simp [removeSpaces, List.filter, ha, hb, hc, hd, he, hf]

/-- When the stripped code differs from the first six candidates and equals
the minutely one, the lookup returns the `"Minute"` label. -/
theorem findMatch_minute (clock : Nat → Int) (i : Nat) (s : JSVal) (code : String)
    (h1 : code ≠ (generateMonthlyOTP clock i s).1)
    (h2 : code ≠ (generateBiWeeklyOTP clock (i + 1) s).1)
    (h3 : code ≠ (generateWeeklyOTP clock (i + 2) s).1)
    (h4 : code ≠ (generateDailyOTP clock (i + 3) s).1)
    (h5 : code ≠ (generateHourlyOTP clock (i + 4) s).1)
    (h6 : code ≠ (generate30MinuteOTP clock (i + 5) s).1)
    (h7 : code = (generateMinutelyOTP clock (i + 6) s).1) :
    findMatch (candidateSet clock i s) code = some "Minute" := by
  have e1 : (((generateMonthlyOTP clock i s).1 == code) = false) :=
    beq_eq_false_iff_ne.mpr (Ne.symm h1)
  have e2 : (((generateBiWeeklyOTP clock (i + 1) s).1 == code) = false) :=
    beq_eq_false_iff_ne.mpr (Ne.symm h2)
  have e3 : (((generateWeeklyOTP clock (i + 2) s).1 == code) = false) :=
    beq_eq_false_iff_ne.mpr (Ne.symm h3)
  have e4 : (((generateDailyOTP clock (i + 3) s).1 == code) = false) :=
    beq_eq_false_iff_ne.mpr (Ne.symm h4)
  have e5 : (((generateHourlyOTP clock (i + 4) s).1 == code) = false) :=
    beq_eq_false_iff_ne.mpr (Ne.symm h5)
  have e6 : (((generate30MinuteOTP clock (i + 5) s).1 == code) = false) :=
    beq_eq_false_iff_ne.mpr (Ne.symm h6)
  have e7 : (((generateMinutelyOTP clock (i + 6) s).1 == code) = true) :=
    beq_iff_eq.mpr h7.symm
  simp only [findMatch, candidateSet, List.find?, e1, e2, e3, e4, e5, e6, e7]
  rfl

/-! ## Claims -/

set_option maxRecDepth 100000 in
/-- C1 (counterexample): the spec demands that an empty secret make
`generateOtp` fail with a `ValidationError`, never silently producing a
code.  On the code, `generateOTP(0, "")` returns the ordinary 6-digit code
`"567640"`: the empty secret is silently padded to the all-zero key and no
error path exists. -/
theorem C1_counterexample : generateOTP (.num 0) (.str "") = "567640" := by
  decide

/-- C1 (amended): `generateOtp` performs no input validation at all: an
empty secret is silently coerced to the all-zero 16-digit key (same output
as the secret `"0000000000000000"`), and any time counter — negative ones
included — is accepted, the call always returning a 6-character code. -/
theorem C1_no_validation (t : JSVal) (i : Int) (s : JSVal) :
    generateOTP t (.str "") = generateOTP t (.str "0000000000000000")
    ∧ (generateOTP (.num i) s).length = 6 :=
  ⟨empty_secret_coerced t, (generateOTP_shape (.num i) s).1⟩

/-- C2: for hex-representable inputs, `generateOtp` renders the time counter
and the secret as 16-character lowercase hex strings (zero-padded), uses the
rendered secret as HMAC key and the rendered counter as HMAC message, and
obtains a 64-hex-character tag from which the OTP is truncated. -/
theorem C2_hex_rendering_and_hmac (t s : Nat) (ht : t < 16 ^ 16)
    (hs : s < 16 ^ 16) :
    (padStart (natToString16 t) 16 '0').length = 16
    ∧ (padStart (natToString16 s) 16 '0').length = 16
    ∧ (∀ x ∈ (padStart (natToString16 t) 16 '0').data, isHexLC x = true)
    ∧ (∀ x ∈ (padStart (natToString16 s) 16 '0').data, isHexLC x = true)
    ∧ (generateHmac (padStart (natToString16 s) 16 '0')
        (padStart (natToString16 t) 16 '0')).length = 64
    ∧ generateOTP (.num (t : Int)) (.num (s : Int))
        = specTruncate (generateHmac (padStart (natToString16 s) 16 '0')
            (padStart (natToString16 t) 16 '0')) := by
  refine ⟨padStart_length_of_le _ _ _ (natToString16_length_le t 16 (by norm_num) ht),
    padStart_length_of_le _ _ _ (natToString16_length_le s 16 (by norm_num) hs),
    padStart_hex_chars t 16, padStart_hex_chars s 16,
    generateHmac_length _ _, ?_⟩
  rw [generateOTP_eq_spec, jsToString16_num_nat, jsToString16_num_nat]

/-- Witness for C2 at `timeCounter = 0`, `secret = 1`. -/
theorem C2_hex_rendering_and_hmac_witness :
    (0 : Nat) < 16 ^ 16 ∧ (1 : Nat) < 16 ^ 16 ∧
    (generateHmac (padStart (natToString16 1) 16 '0')
      (padStart (natToString16 0) 16 '0')).length = 64 :=
  ⟨by norm_num, by norm_num,
    (C2_hex_rendering_and_hmac 0 1 (by norm_num) (by norm_num)).2.2.2.2.1⟩

/-- C3 (counterexample): the spec asserts the wall clock is read exactly
once per generation pass; in the code every granularity helper calls
`Date.now()` itself, so one pass consumes seven clock readings, not one. -/
theorem C3_counterexample :
    (updatePass (fun n => (n : Int)) 0 "1").2 = 7 ∧ 7 ≠ 0 + 1 :=
  ⟨rfl, by decide⟩

/-- C3 (amended): one `updatePass` advances the clock cursor by seven — one
reading per granularity, at successive instants `i, i+1, …, i+6` — and only
when all readings coincide (a constant clock) does the pass agree with the
spec's single-snapshot CandidateSet. -/
theorem C3_seven_reads (clock : Nat → Int) (i : Nat) (sF : String) :
    (updatePass clock i sF).2 = i + 7
    ∧ (updatePass clock i sF).1 =
        [("monthly-otp", formatOTP (generateOTP
            (.num (Int.fdiv (clock i) 2592000000)) (.str (removeSpaces sF)))),
         ("biweekly-otp", formatOTP (generateOTP
            (.num (Int.fdiv (clock (i + 1)) 1209600000)) (.str (removeSpaces sF)))),
         ("weekly-otp", formatOTP (generateOTP
            (.num (Int.fdiv (clock (i + 2)) 604800000)) (.str (removeSpaces sF)))),
         ("daily-otp", formatOTP (generateOTP
            (.num (Int.fdiv (clock (i + 3)) 86400000)) (.str (removeSpaces sF)))),
         ("hourly-otp", formatOTP (generateOTP
            (.num (Int.fdiv (clock (i + 4)) 3600000)) (.str (removeSpaces sF)))),
         ("30-minute-otp", formatOTP (generateOTP
            (.num (Int.fdiv (clock (i + 5)) 1800000)) (.str (removeSpaces sF)))),
         ("minute-otp", formatOTP (generateOTP
            (.num (Int.fdiv (clock (i + 6)) 60000)) (.str (removeSpaces sF))))]
    ∧ ∀ tc : Int, (updatePass (fun _ => tc) i sF).1
        = snapshotCandidates tc (.str (removeSpaces sF)) :=
  ⟨rfl, rfl, fun _ => rfl⟩

/-- C4: `generateOtp` is exactly the spec's dynamic truncation of the tag:
offset from the tag's last hex character (a value at most 15), an
8-hex-character big-endian slice at index `offset * 2`, the `0x7fffffff`
mask, and reduction modulo 1 000 000. -/
theorem C4_truncation (t s : JSVal) :
    generateOTP t s
      = specTruncate (generateHmac (padStart (jsToString16 s) 16 '0')
          (padStart (jsToString16 t) 16 '0'))
    ∧ (hexDigitVal ((generateHmac (padStart (jsToString16 s) 16 '0')
          (padStart (jsToString16 t) 16 '0')).data.getLastD '0')).getD 0 ≤ 15 :=
  ⟨generateOTP_eq_spec t s, hexDigitVal_getD_le _⟩

/-- C5: on every input, `generateOtp` returns exactly 6 ASCII decimal
digits (hence a value in [000000, 999999]). -/
theorem C5_output_shape (t s : JSVal) :
    (generateOTP t s).length = 6
    ∧ ∀ x ∈ (generateOTP t s).data, x.isDigit = true :=
  generateOTP_shape t s

/-- C6: `testCodes` strips spaces from both fields, recomputes the seven
candidates in the fixed monthly → minute order, and reports the label of the
first exact string match (or the no-match message); in particular, a code
equal to the minutely candidate and different from the six higher-priority
ones yields the Minute label. -/
theorem C6_matching (clock : Nat → Int) (i : Nat) (sF cF : String) :
    (testCodes clock i sF cF).1
      = renderMatch (findMatch (candidateSet clock i (.str (removeSpaces sF)))
          (removeSpaces cF))
    ∧ ((removeSpaces cF ≠ (generateMonthlyOTP clock i (.str (removeSpaces sF))).1
        ∧ removeSpaces cF ≠ (generateBiWeeklyOTP clock (i + 1) (.str (removeSpaces sF))).1
        ∧ removeSpaces cF ≠ (generateWeeklyOTP clock (i + 2) (.str (removeSpaces sF))).1
        ∧ removeSpaces cF ≠ (generateDailyOTP clock (i + 3) (.str (removeSpaces sF))).1
        ∧ removeSpaces cF ≠ (generateHourlyOTP clock (i + 4) (.str (removeSpaces sF))).1
        ∧ removeSpaces cF ≠ (generate30MinuteOTP clock (i + 5) (.str (removeSpaces sF))).1
        ∧ removeSpaces cF = (generateMinutelyOTP clock (i + 6) (.str (removeSpaces sF))).1)
       → (testCodes clock i sF cF).1 = "Code matches Minute code") := by
  refine ⟨testCodes_fst clock i sF cF, ?_⟩
  rintro ⟨h1, h2, h3, h4, h5, h6, h7⟩
  rw [testCodes_fst clock i sF cF,
    findMatch_minute clock i (.str (removeSpaces sF)) (removeSpaces cF)
      h1 h2 h3 h4 h5 h6 h7]
  rfl

/-- Witness for C6 at concrete inputs. -/
theorem C6_matching_witness :
    (testCodes (fun _ => 0) 0 "1" "2").1
      = renderMatch (findMatch (candidateSet (fun _ => 0) 0
          (.str (removeSpaces "1"))) (removeSpaces "2")) :=
  (C6_matching (fun _ => 0) 0 "1" "2").1

/-- C7: `generateOtp` is deterministic and pure: equal (timeCounter, secret)
pairs give identical results, and the CandidateSet depends only on the clock
readings consumed and the secret — not on where in the reading stream the
pass happens (no hidden state between invocations). -/
theorem C7_deterministic (t t' s s' : JSVal) (clock clock' : Nat → Int)
    (i i' : Nat) (ht : t = t') (hs : s = s')
    (hclk : ∀ k, k < 7 → clock (i + k) = clock' (i' + k)) :
    generateOTP t s = generateOTP t' s'
    ∧ candidateSet clock i s = candidateSet clock' i' s' := by
  subst ht
  subst hs
  refine ⟨rfl, ?_⟩
  have e0 := hclk 0 (by norm_num)
  have e1 := hclk 1 (by norm_num)
  have e2 := hclk 2 (by norm_num)
  have e3 := hclk 3 (by norm_num)
  have e4 := hclk 4 (by norm_num)
  have e5 := hclk 5 (by norm_num)
  have e6 := hclk 6 (by norm_num)
  rw [Nat.add_zero, Nat.add_zero] at e0
  simp only [candidateSet, generateMonthlyOTP, generateBiWeeklyOTP,
    generateWeeklyOTP, generateDailyOTP, generateHourlyOTP, generate30MinuteOTP,
    generateMinutelyOTP, e0, e1, e2, e3, e4, e5, e6]

/-- Witness for C7: the same pass computed at two different cursor positions
of (pointwise equal) clocks gives the same candidates. -/
theorem C7_deterministic_witness :
    generateOTP (.num 0) (.str "1") = generateOTP (.num 0) (.str "1")
    ∧ candidateSet (fun _ => 0) 0 (.str "1")
        = candidateSet (fun _ => (0 : Int)) 5 (.str "1") :=
  C7_deterministic _ _ _ _ _ _ 0 5 rfl rfl (fun _ _ => rfl)

/-- C8: on a 6-digit string, `formatOtp` yields the first three characters,
a space, and the last three; stripping the space recovers the original. -/
theorem C8_format_roundtrip (otp : String) (h6 : otp.length = 6)
    (hdig : ∀ x ∈ otp.data, x.isDigit = true) :
    formatOTP otp
      = (⟨otp.data.take 3⟩ : String) ++ " " ++ (⟨otp.data.drop 3⟩ : String)
    ∧ removeSpaces (formatOTP otp) = otp := by
  obtain ⟨l⟩ := otp
  obtain ⟨a, b, c, d, e, f, rfl⟩ := length_eq_six l h6
  have ha := digit_ne_space a (hdig a (by simp))
  have hb := digit_ne_space b (hdig b (by simp))
  have hc := digit_ne_space c (hdig c (by simp))
  have hd := digit_ne_space d (hdig d (by simp))
  have he := digit_ne_space e (hdig e (by simp))
  have hf := digit_ne_space f (hdig f (by simp))
  constructor
  · exact formatOTP_six a b c d e f
  · rw [formatOTP_six]
    exact removeSpaces_six a b c d e f ha hb hc hd he hf

/-- Witness for C8 at `"123456"`. -/
theorem C8_format_roundtrip_witness :
    formatOTP "123456"
      = (⟨("123456" : String).data.take 3⟩ : String) ++ " "
          ++ (⟨("123456" : String).data.drop 3⟩ : String)
    ∧ removeSpaces (formatOTP "123456") = "123456" :=
  C8_format_roundtrip "123456" (by decide) (by decide)

/-- C9: with a string secret (as at the input boundary), the `toString(16)`
radix is ignored: the HMAC key is the secret itself left-padded with `'0'`
to 16 characters (unchanged when already that long — the padding list is
empty), no numeric parsing happens, and the empty secret silently becomes
the key `"0000000000000000"`. -/
theorem C9_string_secret (t : JSVal) (s : String) :
    generateOTP t (.str s)
      = specTruncate (generateHmac (padStart s 16 '0')
          (padStart (jsToString16 t) 16 '0'))
    ∧ (padStart s 16 '0').data = List.replicate (16 - s.length) '0' ++ s.data
    ∧ padStart "" 16 '0' = "0000000000000000" :=
  ⟨generateOTP_eq_spec t (.str s), padStart_data s 16 '0', by decide⟩

/-- C10: on every tag the HMAC step can produce, the truncation is
in-bounds: the offset parses to a value at most 15, the slice window
`[offset*2, offset*2+8)` ends at most at index 38 of the 64-character tag,
and the extracted slice has exactly 8 hex characters, so its parse never
sees a short or empty string. -/
theorem C10_truncation_inbounds (key msg : String) :
    ∃ o : Nat,
      jsParseInt16 (jsSubstringFrom (generateHmac key msg)
          (((generateHmac key msg).length : Int) - 1)) = some ((o : Nat) : Int)
      ∧ o ≤ 15
      ∧ o * 2 + 8 ≤ 38
      ∧ (generateHmac key msg).length = 64
      ∧ (jsNaNSlice (generateHmac key msg) (some ((o : Nat) : Int))).length = 8
      ∧ (jsParseInt16 (jsNaNSlice (generateHmac key msg)
          (some ((o : Nat) : Int)))).isSome = true := by
  obtain ⟨hlen, hhex⟩ := generateHmac_shape key msg
  obtain ⟨hp, h15, hsl, hps⟩ :=
    tag_truncation_facts (generateHmac key msg) hlen hhex
  exact ⟨_, hp, h15, by omega, hlen, hsl, hps⟩
